import Mathlib

/-
Shallow embedding of src/elnortescrapper/scrapper.py (class Scrapper), a
sequential web scrapper for real-estate classified ads.  Pure pieces of the
Python code (regex field extraction, record assembly, the orchestrator loop,
the retry loop, the pagination loop, the ad-extraction filtering) are
translated into executable Lean definitions; network responses and the
random number generator are passed in explicitly as data.
-/

/-- Single apostrophe character, kept as a named constant so that source
message strings can be reproduced exactly. -/
def apos : String := String.mk [Char.ofNat 39]

/-- Python membership test of one string inside another: listPrefixB tests
whether the first list is an initial segment of the second. -/
def listPrefixB : List Char → List Char → Bool
  | [], _ => true
  | _ :: _, [] => false
  | a :: as, b :: bs => a == b && listPrefixB as bs

/-- Python substring test, needle in hay, over char lists. -/
def listSubB (needle : List Char) : List Char → Bool
  | [] => needle.isEmpty
  | c :: rest => listPrefixB needle (c :: rest) || listSubB needle rest

/-- Python expression needle in hay for strings. -/
def pyIn (needle hay : String) : Bool := listSubB needle.toList hay.toList

/-- Python exception value: the class it is raised with and its message.
All three failures in scrapper.py are raised as the bare class Exception,
with three different messages. -/
structure PyException where
  cls : String
  msg : String
deriving DecidableEq

instance {ε α : Type} [DecidableEq ε] [DecidableEq α] : DecidableEq (Except ε α) := fun a b =>
  match a, b with
  | .ok x, .ok y =>
    if h : x = y then isTrue (by rw [h]) else isFalse (fun he => by cases he; exact h rfl)
  | .error x, .error y =>
    if h : x = y then isTrue (by rw [h]) else isFalse (fun he => by cases he; exact h rfl)
  | .ok _, .error _ => isFalse (fun he => by cases he)
  | .error _, .ok _ => isFalse (fun he => by cases he)

/-- Exception raised at scrapper.py line 168 when the retry budget is gone. -/
def communicationExc : PyException := ⟨"Exception", "Server communication problem"⟩

/-- Exception raised at scrapper.py line 283 when fetching or inspecting a
listing page fails. -/
def paginationExc : PyException := ⟨"Exception", "Detection of last page of ads failed"⟩

/-- Exception raised at scrapper.py line 387 for an unregistered category. -/
def unknownCategoryExc : PyException :=
  ⟨"Exception", "Unrecognized category. Try the atribute " ++ apos ++ "categories" ++ apos⟩

/-- IndexError raised by elem.find_all(...)[1] when an ad child carries
fewer than two hyperlinks (scrapper.py line 319). -/
def indexErrorExc : PyException := ⟨"IndexError", "list index out of range"⟩

/-- Length of the maximal run of characters satisfying p at the head of the
list; used to resolve greedy character-class quantifiers. -/
def runLen (p : Char → Bool) : List Char → Nat
  | [] => 0
  | c :: cs => if p c then runLen p cs + 1 else 0

/-- Regex token: a literal string, a greedy starred character class, or a
greedy plus-quantified character class.  The patterns in scrapper.py only
quantify single-character classes, so this token language covers them. -/
inductive Tok where
  | lit : List Char → Tok
  | star : (Char → Bool) → Tok
  | plus : (Char → Bool) → Tok

/-- Concatenation of the images of f, in order. -/
def catMap {α β : Type} (f : α → List β) : List α → List β
  | [] => []
  | a :: as => f a ++ catMap f as

/-- Backtracking matcher for a token sequence against an input: returns the
list of possible remainders, in the priority order of a backtracking regex
engine (greedy quantifiers try longer consumptions first).  The head of the
returned list, when it exists, is the remainder the engine commits to. -/
def matchToks : List Tok → List Char → List (List Char)
  | [], s => [s]
  | Tok.lit l :: ts, s => if listPrefixB l s then matchToks ts (s.drop l.length) else []
  | Tok.star p :: ts, s =>
      catMap (fun k => matchToks ts (s.drop k)) ((List.range (runLen p s + 1)).reverse)
  | Tok.plus p :: ts, s =>
      catMap (fun k => matchToks ts (s.drop k))
        (((List.range (runLen p s + 1)).reverse).filter (fun k => k ≠ 0))

/-- A search pattern with exactly one capture group: tokens before the
group, the group itself, and tokens after the group.  Every pattern used in
scrapper.py has exactly one capture group. -/
structure Pat where
  pre : List Tok
  grp : List Tok
  post : List Tok

/-- First produced value of f over the list, scanning left to right. -/
def firstSome {α β : Type} (f : α → Option β) : List α → Option β
  | [] => none
  | a :: as => match f a with
    | some b => some b
    | none => firstSome f as

/-- Attempt to match the pattern starting exactly at the head of s; on
success return the characters consumed by the capture group of the
highest-priority match. -/
def tryHere (pat : Pat) (s : List Char) : Option (List Char) :=
  firstSome (fun r1 =>
    firstSome (fun r2 =>
      match matchToks pat.post r2 with
      | [] => none
      | _ :: _ => some (r1.take (r1.length - r2.length)))
      (matchToks pat.grp r1))
    (matchToks pat.pre s)

/-- All suffixes of a list, longest first; scanning them in order gives the
leftmost-match rule of re.search. -/
def tailsOf : List Char → List (List Char)
  | [] => [[]]
  | c :: cs => (c :: cs) :: tailsOf cs

/-- Model of re.search(pattern, s) followed by .group(1): the capture group
of the leftmost match, or none when the pattern does not occur. -/
def reSearch (pat : Pat) (s : String) : Option String :=
  Option.map (fun cs => String.mk cs) (firstSome (tryHere pat) (tailsOf s.toList))

/-- Characters matched by the class [,0-9] in the precio pattern. -/
def isPrecC (c : Char) : Bool := c == ',' || c.isDigit

/-- Model of the regex class backslash-s (whitespace). -/
def isSpaceC (c : Char) : Bool :=
  c == ' ' || c == '\t' || c == '\n' || c == '\r' || c == Char.ofNat 11 || c == Char.ofNat 12

/-- Accented letters that occur in the Spanish text handled by the site;
together with ASCII alphanumerics and the underscore they model the
Unicode-aware regex class backslash-w for the inputs this code sees. -/
def spanishExtra : List Char := ['á', 'é', 'í', 'ó', 'ú', 'ñ', 'Á', 'É', 'Í', 'Ó', 'Ú', 'Ñ', 'ü', 'Ü']

/-- Model of the regex class backslash-w (word characters). -/
def isWordC (c : Char) : Bool := c.isAlphanum || c == '_' || spanishExtra.contains c

/-- Characters matched by the class [backslash-w space] of the zona and
colonia patterns. -/
def isZonaC (c : Char) : Bool := isWordC c || c == ' '

/-- Characters matched by [backslash-d comma] of the visitas pattern. -/
def isVisC (c : Char) : Bool := c.isDigit || c == ','

/-- Characters matched by [backslash-d dot] in the area and bath patterns. -/
def isNumDotC (c : Char) : Bool := c.isDigit || c == '.'

/-- Characters matched by [backslash-s backslash-w] in fecha_pub. -/
def isSpaceWordC (c : Char) : Bool := isSpaceC c || isWordC c

/-- Characters matched by the class written [backslash-d plus hyphen dot]
in the coordinate patterns: in a regex class the hyphen between plus and
dot denotes the code range 43 to 46, that is plus, comma, hyphen, dot. -/
def isCoordC (c : Char) : Bool := c.isDigit || c == '+' || c == ',' || c == '-' || c == '.'

/-- Characters matched by the regex dot (anything except newline). -/
def isDotC (c : Char) : Bool := c != '\n'

/-- Pattern for precio (scrapper.py line 194). -/
def precioPat : Pat :=
  ⟨[Tok.lit ['$']], [Tok.plus isPrecC, Tok.plus isSpaceC, Tok.star isWordC], []⟩

/-- Pattern for zona (line 198). -/
def zonaPat : Pat := ⟨[Tok.lit "ZONA:".toList, Tok.plus isSpaceC], [Tok.plus isZonaC], []⟩

/-- Pattern for colonia (line 202). -/
def coloniaPat : Pat := ⟨[Tok.lit "COLONIA:".toList, Tok.plus isSpaceC], [Tok.plus isZonaC], []⟩

/-- Pattern for visitas (line 206). -/
def visitasPat : Pat := ⟨[], [Tok.plus isVisC], [Tok.plus isSpaceC, Tok.lit "visitas".toList]⟩

/-- Pattern for plantas (line 210). -/
def plantasPat : Pat := ⟨[], [Tok.plus Char.isDigit], [Tok.plus isSpaceC, Tok.lit "Planta".toList]⟩

/-- Pattern for m2_terreno (line 214). -/
def m2TerrenoPat : Pat :=
  ⟨[], [Tok.plus isNumDotC],
   [Tok.lit "m²".toList, Tok.plus isSpaceC, Tok.lit "de".toList, Tok.plus isSpaceC,
    Tok.lit "Terreno".toList]⟩

/-- Pattern for recámaras (line 218). -/
def recamarasPat : Pat :=
  ⟨[], [Tok.plus Char.isDigit], [Tok.plus isSpaceC, Tok.lit "Recámara".toList]⟩

/-- Pattern for baños (line 222). -/
def banosPat : Pat := ⟨[], [Tok.plus isNumDotC], [Tok.plus isSpaceC, Tok.lit "Baño".toList]⟩

/-- Pattern for m2_constr (line 226). -/
def m2ConstrPat : Pat :=
  ⟨[], [Tok.plus isNumDotC],
   [Tok.lit "m²".toList, Tok.plus isSpaceC, Tok.lit "de".toList, Tok.plus isSpaceC,
    Tok.lit "Construcción".toList]⟩

/-- Pattern for fecha_pub (line 230). -/
def fechaPubPat : Pat :=
  ⟨[Tok.lit "Publicado".toList, Tok.plus isSpaceWordC],
   [Tok.lit [' '], Tok.plus Char.isDigit, Tok.lit " de ".toList, Tok.plus isWordC],
   [Tok.lit ['\n']]⟩

/-- Pattern for latitude (line 234). -/
def latitudePat : Pat := ⟨[Tok.lit "latitude=".toList], [Tok.plus isCoordC], [Tok.lit ['\n']]⟩

/-- Pattern for longitude (line 238). -/
def longitudePat : Pat := ⟨[Tok.lit "longitude=".toList], [Tok.plus isCoordC], [Tok.lit ['\n']]⟩

/-- Pattern for url (line 242): the group is http followed by the rest of
the line. -/
def urlPat : Pat := ⟨[], [Tok.lit "http".toList, Tok.plus isDotC], [Tok.lit ['\n']]⟩

/-- Pattern LatitudGM=value used on map divs (line 347). -/
def latGMPat : Pat := ⟨[Tok.lit "LatitudGM=".toList], [Tok.plus isCoordC], []⟩

/-- Pattern LongitudGM=value used on map divs (line 349). -/
def longGMPat : Pat := ⟨[Tok.lit "LongitudGM=".toList], [Tok.plus isCoordC], []⟩

/-- Column tuple of _venta_casas_ad_to_df (scrapper.py line 183). -/
def columnsVC : List String :=
  ["precio", "zona", "colonia", "visitas", "plantas", "m2_terreno", "recámaras", "baños",
   "m2_constr", "fecha_pub", "latitude", "longitude", "url"]

/-- Model of Scrapper._venta_casas_ad_to_df: the method seeds an ordered
dictionary whose keys are exactly columnsVC, every value None, then
overwrites each value with the capture group of its regex when the regex
matches.  The resulting association list is therefore the key in source
order paired with the search result of its pattern. -/
def ventaCasasAdToDf (ad : String) : List (String × Option String) :=
  [("precio", reSearch precioPat ad),
   ("zona", reSearch zonaPat ad),
   ("colonia", reSearch coloniaPat ad),
   ("visitas", reSearch visitasPat ad),
   ("plantas", reSearch plantasPat ad),
   ("m2_terreno", reSearch m2TerrenoPat ad),
   ("recámaras", reSearch recamarasPat ad),
   ("baños", reSearch banosPat ad),
   ("m2_constr", reSearch m2ConstrPat ad),
   ("fecha_pub", reSearch fechaPubPat ad),
   ("latitude", reSearch latitudePat ad),
   ("longitude", reSearch longitudePat ad),
   ("url", reSearch urlPat ad)]

/-- Value stored under a key of a record, or none when the key is absent. -/
def fieldOf (r : List (String × Option String)) (k : String) : Option String :=
  match r.find? (fun p => p.1 == k) with
  | some p => p.2
  | none => none

/-- Static registry of categories built in Scrapper.__init__ (lines 99 to
132): category name paired with its listing URL.  In the source every entry
additionally stores the bound method _venta_casas_ad_to_df as its parser;
since all 32 entries share that one parser it is kept as the single
function ventaCasasAdToDf. -/
def categoriesReg : List (String × String) :=
  [("venta_casas_cdmx", "http://www.avisosdeocasion.com/Resultados-Inmuebles.aspx?&PlazaBusqueda=1&Plaza=1&pagina=1&idinmueble=3"),
   ("venta_casas_nuevo_leon", "http://www.avisosdeocasion.com/Resultados-Inmuebles.aspx?&PlazaBusqueda=2&Plaza=2&pagina=1&idinmueble=3"),
   ("venta_casas_jalisco", "http://www.avisosdeocasion.com/Resultados-Inmuebles.aspx?&PlazaBusqueda=3&Plaza=3&pagina=1&idinmueble=3"),
   ("venta_casas_aguascalientes", "http://www.avisosdeocasion.com/Resultados-Inmuebles.aspx?&PlazaBusqueda=4&Plaza=4&pagina=1&idinmueble=3"),
   ("venta_casas_baja_california", "http://www.avisosdeocasion.com/Resultados-Inmuebles.aspx?&PlazaBusqueda=5&Plaza=5&pagina=1&idinmueble=3"),
   ("venta_casas_baja_california_sur", "http://www.avisosdeocasion.com/Resultados-Inmuebles.aspx?&PlazaBusqueda=6&Plaza=6&pagina=1&idinmueble=3"),
   ("venta_casas_campeche", "http://www.avisosdeocasion.com/Resultados-Inmuebles.aspx?&PlazaBusqueda=7&Plaza=7&pagina=1&idinmueble=3"),
   ("venta_casas_chiapas", "http://www.avisosdeocasion.com/Resultados-Inmuebles.aspx?&PlazaBusqueda=8&Plaza=8&pagina=1&idinmueble=3"),
   ("venta_casas_chihuahua", "http://www.avisosdeocasion.com/Resultados-Inmuebles.aspx?&PlazaBusqueda=9&Plaza=9&pagina=1&idinmueble=3"),
   ("venta_casas_coahuila", "http://www.avisosdeocasion.com/Resultados-Inmuebles.aspx?&PlazaBusqueda=10&Plaza=10&pagina=1&idinmueble=3"),
   ("venta_casas_colima", "http://www.avisosdeocasion.com/Resultados-Inmuebles.aspx?&PlazaBusqueda=11&Plaza=11&pagina=1&idinmueble=3"),
   ("venta_casas_durango", "http://www.avisosdeocasion.com/Resultados-Inmuebles.aspx?&PlazaBusqueda=12&Plaza=12&pagina=1&idinmueble=3"),
   ("venta_casas_edomex", "http://www.avisosdeocasion.com/Resultados-Inmuebles.aspx?&PlazaBusqueda=13&Plaza=13&pagina=1&idinmueble=3"),
   ("venta_casas_guanajuato", "http://www.avisosdeocasion.com/Resultados-Inmuebles.aspx?&PlazaBusqueda=14&Plaza=14&pagina=1&idinmueble=3"),
   ("venta_casas_guerrero", "http://www.avisosdeocasion.com/Resultados-Inmuebles.aspx?&PlazaBusqueda=15&Plaza=15&pagina=1&idinmueble=3"),
   ("venta_casas_hidalgo", "http://www.avisosdeocasion.com/Resultados-Inmuebles.aspx?&PlazaBusqueda=16&Plaza=16&pagina=1&idinmueble=3"),
   ("venta_casas_michoacan", "http://www.avisosdeocasion.com/Resultados-Inmuebles.aspx?&PlazaBusqueda=17&Plaza=17&pagina=1&idinmueble=3"),
   ("venta_casas_morelos", "http://www.avisosdeocasion.com/Resultados-Inmuebles.aspx?&PlazaBusqueda=18&Plaza=18&pagina=1&idinmueble=3"),
   ("venta_casas_nayarit", "http://www.avisosdeocasion.com/Resultados-Inmuebles.aspx?&PlazaBusqueda=19&Plaza=19&pagina=1&idinmueble=3"),
   ("venta_casas_oaxaca", "http://www.avisosdeocasion.com/Resultados-Inmuebles.aspx?&PlazaBusqueda=20&Plaza=20&pagina=1&idinmueble=3"),
   ("venta_casas_puebla", "http://www.avisosdeocasion.com/Resultados-Inmuebles.aspx?&PlazaBusqueda=21&Plaza=21&pagina=1&idinmueble=3"),
   ("venta_casas_queretaro", "http://www.avisosdeocasion.com/Resultados-Inmuebles.aspx?&PlazaBusqueda=22&Plaza=22&pagina=1&idinmueble=3"),
   ("venta_casas_quintana_roo", "http://www.avisosdeocasion.com/Resultados-Inmuebles.aspx?&PlazaBusqueda=23&Plaza=23&pagina=1&idinmueble=3"),
   ("venta_casas_san_luis", "http://www.avisosdeocasion.com/Resultados-Inmuebles.aspx?&PlazaBusqueda=24&Plaza=24&pagina=1&idinmueble=3"),
   ("venta_casas_sinaloa", "http://www.avisosdeocasion.com/Resultados-Inmuebles.aspx?&PlazaBusqueda=25&Plaza=25&pagina=1&idinmueble=3"),
   ("venta_casas_sonora", "http://www.avisosdeocasion.com/Resultados-Inmuebles.aspx?&PlazaBusqueda=26&Plaza=26&pagina=1&idinmueble=3"),
   ("venta_casas_tabasco", "http://www.avisosdeocasion.com/Resultados-Inmuebles.aspx?&PlazaBusqueda=27&Plaza=27&pagina=1&idinmueble=3"),
   ("venta_casas_tamaulipas", "http://www.avisosdeocasion.com/Resultados-Inmuebles.aspx?&PlazaBusqueda=28&Plaza=28&pagina=1&idinmueble=3"),
   ("venta_casas_tlaxcala", "http://www.avisosdeocasion.com/Resultados-Inmuebles.aspx?&PlazaBusqueda=29&Plaza=29&pagina=1&idinmueble=3"),
   ("venta_casas_veracruz", "http://www.avisosdeocasion.com/Resultados-Inmuebles.aspx?&PlazaBusqueda=30&Plaza=30&pagina=1&idinmueble=3"),
   ("venta_casas_yucatan", "http://www.avisosdeocasion.com/Resultados-Inmuebles.aspx?&PlazaBusqueda=31&Plaza=31&pagina=1&idinmueble=3"),
   ("venta_casas_texas", "http://www.avisosdeocasion.com/Resultados-Inmuebles.aspx?&PlazaBusqueda=34&Plaza=34&pagina=1&idinmueble=3")]

/-- Names of the registered categories, in registry order. -/
def categoryNames : List String := categoriesReg.map Prod.fst

/-- Random draws consumed by one call of _request_helper: the randint(1,10)
politeness roll, the randint(1,5) politeness pause length, and for each
failed attempt index the randint(5,15) backoff. -/
structure RandDraws where
  pauseRoll : Nat
  pauseLen : Nat
  backoffs : Nat → Nat

/-- Observable behaviour of one _request_helper call: its outcome (the
index of the successful attempt, or the communication exception), how many
requests were issued, and every sleep performed, in order. -/
structure RequestResult where
  outcome : Except PyException Nat
  attempts : Nat
  sleeps : List Nat
deriving DecidableEq

/-- Retry loop of _request_helper (lines 148 to 166): remaining_attempts
starts at 10; each iteration issues one request; a failure sleeps a backoff
and decrements the budget, a success optionally sleeps the politeness pause
(when the roll equals 1) and leaves the loop.  succ i tells whether the
attempt with index i succeeds. -/
def requestLoop (succ : Nat → Bool) (r : RandDraws) : Nat → Nat → RequestResult
  | 0, _ => ⟨.error communicationExc, 0, []⟩
  | rem + 1, i =>
    if succ i then
      ⟨.ok i, 1, if r.pauseRoll = 1 then [r.pauseLen] else []⟩
    else
      let rest := requestLoop succ r rem (i + 1)
      ⟨rest.outcome, rest.attempts + 1, r.backoffs i :: rest.sleeps⟩

/-- Model of Scrapper._request_helper: the loop entered with a budget of 10
attempts, starting at attempt index 0. -/
def requestHelper (succ : Nat → Bool) (r : RandDraws) : RequestResult :=
  requestLoop succ r 10 0

/-- Python join of a list of strings with a comma-space separator. -/
def pyJoin : List String → String
  | [] => ""
  | [x] => x
  | x :: y :: rest => x ++ ", " ++ pyJoin (y :: rest)

/-- Python repr of one string (single quotes around it). -/
def pyRepr (s : String) : String := apos ++ s ++ apos

/-- Python str() of a list of strings, as produced for a class-attribute
list or an xpath text-node list. -/
def strOfPyList (xs : List String) : String := "[" ++ pyJoin (xs.map pyRepr) ++ "]"

/-- Sentinel marker looked for in the celda_rut1 region (line 285). -/
def sentinelMarker : String := "No se encontraron avisos"

/-- Last-page test of _pages_of_ads: the marker is searched inside the
Python str() of the xpath result list. -/
def lastPageCheck (region : List String) : Bool := pyIn sentinelMarker (strOfPyList region)

/-- Outcome of fetching and inspecting one listing page: ok carries the
text nodes of the celda_rut1 sentinel region; fail carries the exception
the fetch or the parse raised. -/
inductive FetchOutcome where
  | ok : List String → FetchOutcome
  | fail : PyException → FetchOutcome

/-- What one iteration of the pagination loop does after the counter
update: yield the page, stop the generator, or raise. -/
inductive StepAction where
  | yieldPage : Nat → StepAction
  | stop : StepAction
  | err : PyException → StepAction
deriving DecidableEq

/-- End state of the page generator: normal exhaustion at the sentinel,
an exception, or the fuel of the model ran out. -/
inductive PagEnd where
  | stopped : PagEnd
  | errored : PyException → PagEnd
  | fuelOut : PagEnd
deriving DecidableEq

/-- One iteration of the while loop of _pages_of_ads (lines 269 to 289):
the url is built from the current counter, the counter is incremented
before the fetch is attempted, and then the fetch outcome decides whether
the page is yielded, the generator stops at the sentinel, or any failure is
re-raised as the pagination exception. -/
def pageStep (fetch : Nat → FetchOutcome) (pageNumber : Nat) : Nat × StepAction :=
  (pageNumber + 1,
    match fetch pageNumber with
    | .fail _ => .err paginationExc
    | .ok region => if lastPageCheck region then .stop else .yieldPage pageNumber)

/-- Fuel-bounded unfolding of the _pages_of_ads generator from a given
page number: the list of yielded page numbers and how the generator ended. -/
def pagesOfAds (fetch : Nat → FetchOutcome) : Nat → Nat → List Nat × PagEnd
  | 0, _ => ([], .fuelOut)
  | fuel + 1, n =>
    match (pageStep fetch n).2 with
    | .yieldPage p =>
      let r := pagesOfAds fetch fuel (pageStep fetch n).1
      (p :: r.1, r.2)
    | .stop => ([], .stopped)
    | .err e => ([], .errored e)

/-- One child element of a listing cell: the text its get_text() returns
(none when get_text raises on a malformed fragment) and the href values of
its hyperlinks in document order. -/
structure AdChild where
  text : Option String
  links : List String
deriving DecidableEq

/-- One td element of a listing page: its class-attribute tokens and its
child elements. -/
structure TdCell where
  classes : List String
  children : List AdChild
deriving DecidableEq

/-- Per-child step of _ads_in_a_page (lines 304 to 319): a failing
get_text or a text without the currency marker skips the child; otherwise
the second hyperlink is taken, and its absence is an IndexError.  The outer
none means skipped, some none means IndexError, some (some u) means the
detail page u is fetched. -/
def processChild (c : AdChild) : Option (Option String) :=
  match c.text with
  | none => none
  | some t => if pyIn "$" t then some (c.links.get? 1) else none

/-- Detail urls fetched for the children of one kept cell, processed left
to right; an IndexError aborts the whole extraction. -/
def cellAds : List AdChild → Except PyException (List String)
  | [] => .ok []
  | c :: cs =>
    match processChild c with
    | none => cellAds cs
    | some none => .error indexErrorExc
    | some (some u) =>
      match cellAds cs with
      | .error e => .error e
      | .ok us => .ok (u :: us)

/-- Model of find_all with class ar12grisb (line 301): the cells whose
class token list contains that exact token. -/
def findAllTds (tds : List TdCell) : List TdCell :=
  tds.filter (fun td => td.classes.contains "ar12grisb")

/-- Cell loop of _ads_in_a_page: each found cell passes the secondary
check, a substring test of ar12gris inside the Python str() of its class
list (line 302), and then its children are processed. -/
def cellsAds : List TdCell → Except PyException (List String)
  | [] => .ok []
  | td :: rest =>
    if pyIn "ar12gris" (strOfPyList td.classes) then
      match cellAds td.children with
      | .error e => .error e
      | .ok us =>
        match cellsAds rest with
        | .error e => .error e
        | .ok more => .ok (us ++ more)
    else cellsAds rest

/-- Model of Scrapper._ads_in_a_page restricted to which detail pages get
fetched: the page is the list of its td cells. -/
def adsInAPage (tds : List TdCell) : Except PyException (List String) :=
  cellsAds (findAllTds tds)

/-- Data of one ad detail page as consumed by the AdText assembly (lines
321 to 355): the ad url, the pestanas text, the highlights text, the first
info-table row text, the carac_td texts, and the str() of each div with id
divMapa. -/
structure AdDetailPage where
  adUrl : String
  visitas : String
  highlights : String
  info : String
  carac : List String
  mapDivs : List String

/-- Geolocation loop (lines 343 to 354): for each map div, the condition
tested is only membership of LongitudGM in the div (the conjunct quoting
LatitudGM is a truthy literal and is discarded by Python); when either
pattern extraction then fails, the raised error is swallowed and the whole
loop aborts, keeping the lines accumulated so far. -/
def geoLines : List String → List String
  | [] => []
  | d :: ds =>
    if pyIn "LongitudGM" d then
      match reSearch latGMPat d, reSearch longGMPat d with
      | some la, some lo => ("latitude=" ++ la) :: ("longitude=" ++ lo) :: geoLines ds
      | _, _ => []
    else geoLines ds

/-- AdText portion assembled before the geolocation block (lines 326 to
341). -/
def adBase (p : AdDetailPage) : String :=
  p.adUrl ++ "\n" ++ p.visitas ++ "\n" ++ p.highlights ++ "\n" ++ p.info ++ "\n"
    ++ String.join (p.carac.map (fun t => t ++ "\n"))

/-- Full AdText of one detail page. -/
def adAsString (p : AdDetailPage) : String :=
  adBase p ++ String.join ((geoLines p.mapDivs).map (fun t => t ++ "\n"))

/-- Test whether a map div contains both coordinate marker strings. -/
def hasBothMarkers (d : String) : Bool := pyIn "LatitudGM" d && pyIn "LongitudGM" d

/-- Splitting a character list at newline separators, keeping empty
segments, so a trailing newline yields a final empty segment. -/
def splitNl : List Char → List (List Char)
  | [] => [[]]
  | c :: cs =>
    if c = '\n' then [] :: splitNl cs
    else
      match splitNl cs with
      | [] => [[c]]
      | l :: ls => (c :: l) :: ls

/-- Test whether an AdText ends with a latitude line followed by a
longitude line: the text always ends with a newline, so after splitting on
newlines the last segment is empty and the two before it are inspected. -/
def endsWithGeoLines (s : String) : Bool :=
  match (splitNl s.toList).reverse with
  | last :: lonLine :: latLine :: _ =>
    last.isEmpty && listPrefixB "longitude=".toList lonLine && listPrefixB "latitude=".toList latLine
  | _ => false

/-- Truthiness test of the early-stop condition at line 406: Python
evaluates ad_limit and scrapped_ads >= ad_limit, so a missing limit and a
zero limit are both falsy and never stop the crawl. -/
def limitHit : Option Nat → Nat → Bool
  | none, _ => false
  | some l, s => if l = 0 then false else decide (l ≤ s)

/-- Inner loop of Scrapper.scrap over the ads of one page (lines 397 to
408): returns the ads appended on this page, the updated counter, and the
remaining_ads flag after the page. -/
def scrapPage (adLimit : Option Nat) : List String → Nat → List String × Nat × Bool
  | [], n => ([], n, true)
  | a :: as, n =>
    if limitHit adLimit (n + 1) then ([a], n + 1, false)
    else
      let r := scrapPage adLimit as (n + 1)
      (a :: r.1, r.2.1, r.2.2)

/-- Outer loop of Scrapper.scrap over the pages (lines 394 to 408): pages
are consumed while remaining_ads holds. -/
def scrapPages (adLimit : Option Nat) : List (List String) → Nat → List String
  | [], _ => []
  | p :: ps, n =>
    let r := scrapPage adLimit p n
    if r.2.2 then r.1 ++ scrapPages adLimit ps r.2.1 else r.1

/-- Model of Scrapper.scrap (lines 371 to 410): the category is looked up
in the registry before anything else and an unknown category raises; a
registered category processes the ad stream delivered by the paginator and
extractor, modelled as the list of pages with the AdTexts on each, turning
every appended ad into a record with the venta_casas field parser. -/
def scrap (category : String) (adLimit : Option Nat) (pages : List (List String)) :
    Except PyException (List (List (String × Option String))) :=
  if categoryNames.contains category then
    .ok ((scrapPages adLimit pages 0).map ventaCasasAdToDf)
  else .error unknownCategoryExc

/-- r is a suffix of s. -/
def SufOf (r s : List Char) : Prop := ∃ u, u ++ r = s

/-- l occurs as a contiguous segment of s. -/
def SubIn (l s : List Char) : Prop := ∃ u v, s = u ++ l ++ v

theorem sufOf_refl (s : List Char) : SufOf s s := ⟨[], rfl⟩

theorem sufOf_drop (s : List Char) (k : Nat) : SufOf (s.drop k) s :=
  ⟨s.take k, List.take_append_drop k s⟩

theorem sufOf_trans {a b c : List Char} (h1 : SufOf a b) (h2 : SufOf b c) : SufOf a c := by
  obtain ⟨u, hu⟩ := h1
  obtain ⟨v, hv⟩ := h2
  exact ⟨v ++ u, by rw [List.append_assoc, hu, hv]⟩

theorem subIn_trans {a b c : List Char} (h1 : SubIn a b) (h2 : SubIn b c) : SubIn a c := by
  obtain ⟨u1, v1, hu⟩ := h1
  obtain ⟨u2, v2, hv⟩ := h2
  refine ⟨u2 ++ u1, v1 ++ v2, ?_⟩
  subst hu hv
  simp [List.append_assoc]

theorem subIn_of_sufOf {a b c : List Char} (h1 : SubIn a b) (h2 : SufOf b c) : SubIn a c := by
  obtain ⟨u1, v1, hu⟩ := h1
  obtain ⟨u2, hv⟩ := h2
  refine ⟨u2 ++ u1, v1, ?_⟩
  subst hu
  rw [← hv]
  simp [List.append_assoc]

theorem listPrefixB_iff {l s : List Char} : listPrefixB l s = true ↔ ∃ v, s = l ++ v := by
  induction l generalizing s with
  | nil => simp [listPrefixB]
  | cons a as ih =>
    cases s with
    | nil => simp [listPrefixB]
    | cons b bs =>
      simp only [listPrefixB, Bool.and_eq_true, beq_iff_eq, ih, List.cons_append]
      constructor
      · rintro ⟨rfl, v, rfl⟩
        exact ⟨v, rfl⟩
      · rintro ⟨v, he⟩
        cases he
        exact ⟨rfl, v, rfl⟩

theorem listSubB_iff {n h : List Char} : listSubB n h = true ↔ SubIn n h := by
  induction h with
  | nil =>
    simp only [listSubB, List.isEmpty_iff, SubIn]
    constructor
    · rintro rfl
      exact ⟨[], [], rfl⟩
    · rintro ⟨u, v, he⟩
      rcases u with _ | _ <;> rcases n with _ | _ <;> simp_all
  | cons c rest ih =>
    simp only [listSubB, Bool.or_eq_true, listPrefixB_iff, ih, SubIn]
    constructor
    · rintro (⟨v, he⟩ | ⟨u, v, he⟩)
      · exact ⟨[], v, by simp [he]⟩
      · exact ⟨c :: u, v, by simp [he]⟩
    · rintro ⟨u, v, he⟩
      cases u with
      | nil => exact Or.inl ⟨v, by simpa using he⟩
      | cons x xs =>
        right
        refine ⟨xs, v, ?_⟩
        have := he
        simp only [List.cons_append] at this
        cases this
        rfl

theorem pyIn_iff {n h : String} : pyIn n h = true ↔ SubIn n.toList h.toList := by
  simp [pyIn, listSubB_iff]

theorem mem_catMap {α β : Type} {f : α → List β} {l : List α} {b : β} :
    b ∈ catMap f l ↔ ∃ a, a ∈ l ∧ b ∈ f a := by
  induction l with
  | nil => simp [catMap]
  | cons x xs ih =>
    simp only [catMap, List.mem_append, ih, List.mem_cons]
    constructor
    · rintro (hb | ⟨a, ha, hb⟩)
      · exact ⟨x, Or.inl rfl, hb⟩
      · exact ⟨a, Or.inr ha, hb⟩
    · rintro ⟨a, rfl | ha, hb⟩
      · exact Or.inl hb
      · exact Or.inr ⟨a, ha, hb⟩

theorem firstSome_eq_some {α β : Type} {f : α → Option β} {l : List α} {b : β}
    (h : firstSome f l = some b) : ∃ a, a ∈ l ∧ f a = some b := by
  induction l with
  | nil => simp [firstSome] at h
  | cons x xs ih =>
    rw [firstSome] at h
    rcases hx : f x with _ | y
    · rw [hx] at h
      obtain ⟨a, ha, hb⟩ := ih h
      exact ⟨a, List.mem_cons_of_mem _ ha, hb⟩
    · rw [hx] at h
      cases h
      exact ⟨x, List.mem_cons_self _ _, hx⟩

theorem matchToks_sufOf : ∀ (ts : List Tok) (s r : List Char), r ∈ matchToks ts s → SufOf r s := by
  intro ts
  induction ts with
  | nil =>
    intro s r hr
    simp only [matchToks, List.mem_singleton] at hr
    subst hr
    exact sufOf_refl _
  | cons t ts ih =>
    intro s r hr
    cases t with
    | lit l =>
      rw [matchToks] at hr
      by_cases hp : listPrefixB l s = true
      · rw [if_pos hp] at hr
        exact sufOf_trans (ih _ _ hr) (sufOf_drop s l.length)
      · rw [if_neg hp] at hr
        simp at hr
    | star p =>
      rw [matchToks] at hr
      obtain ⟨k, _, hk⟩ := mem_catMap.mp hr
      exact sufOf_trans (ih _ _ hk) (sufOf_drop s k)
    | plus p =>
      rw [matchToks] at hr
      obtain ⟨k, _, hk⟩ := mem_catMap.mp hr
      exact sufOf_trans (ih _ _ hk) (sufOf_drop s k)

theorem matchToks_lit_subIn : ∀ (ts : List Tok) (s r l : List Char),
    Tok.lit l ∈ ts → r ∈ matchToks ts s → SubIn l s := by
  intro ts
  induction ts with
  | nil =>
    intro s r l hl _
    simp at hl
  | cons t ts ih =>
    intro s r l hl hr
    rcases List.mem_cons.mp hl with he | htail
    · subst he
      rw [matchToks] at hr
      by_cases hp : listPrefixB l s = true
      · obtain ⟨v, hv⟩ := listPrefixB_iff.mp hp
        exact ⟨[], v, by simp [hv]⟩
      · rw [if_neg hp] at hr
        simp at hr
    · cases t with
      | lit l2 =>
        rw [matchToks] at hr
        by_cases hp : listPrefixB l2 s = true
        · rw [if_pos hp] at hr
          exact subIn_of_sufOf (ih _ _ _ htail hr) (sufOf_drop s l2.length)
        · rw [if_neg hp] at hr
          simp at hr
      | star p =>
        rw [matchToks] at hr
        obtain ⟨k, _, hk⟩ := mem_catMap.mp hr
        exact subIn_of_sufOf (ih _ _ _ htail hk) (sufOf_drop s k)
      | plus p =>
        rw [matchToks] at hr
        obtain ⟨k, _, hk⟩ := mem_catMap.mp hr
        exact subIn_of_sufOf (ih _ _ _ htail hk) (sufOf_drop s k)

theorem mem_tailsOf : ∀ (s t : List Char), t ∈ tailsOf s → SufOf t s := by
  intro s
  induction s with
  | nil =>
    intro t ht
    simp only [tailsOf, List.mem_singleton] at ht
    subst ht
    exact sufOf_refl []
  | cons c cs ih =>
    intro t ht
    rw [tailsOf] at ht
    rcases List.mem_cons.mp ht with he | htail
    · subst he
      exact sufOf_refl _
    · obtain ⟨u, hu⟩ := ih t htail
      exact ⟨c :: u, by simp [hu]⟩

/-- Every literal token of a pattern occurs in the input whenever the
search succeeds: the successful match threads remainders through pre, grp
and post, so a literal in any of the three segments was consumed from a
suffix of some tail of the input. -/
theorem reSearch_some_subIn {pat : Pat} {s : String} {v : String} {l : List Char}
    (hv : reSearch pat s = some v)
    (hl : Tok.lit l ∈ pat.pre ++ pat.grp ++ pat.post) : SubIn l s.toList := by
  rw [reSearch] at hv
  rcases hf : firstSome (tryHere pat) (tailsOf s.toList) with _ | cs
  · rw [hf] at hv
    simp at hv
  · obtain ⟨t, ht, htry⟩ := firstSome_eq_some hf
    have hts : SufOf t s.toList := mem_tailsOf _ _ ht
    rw [tryHere] at htry
    obtain ⟨r1, hr1, h1⟩ := firstSome_eq_some htry
    obtain ⟨r2, hr2, h2⟩ := firstSome_eq_some h1
    have hsuf1 : SufOf r1 t := matchToks_sufOf _ _ _ hr1
    have hsuf2 : SufOf r2 r1 := matchToks_sufOf _ _ _ hr2
    rcases List.mem_append.mp hl with hpg | hpost
    · rcases List.mem_append.mp hpg with hpre | hgrp
      · exact subIn_of_sufOf (matchToks_lit_subIn _ _ _ _ hpre hr1) hts
      · exact subIn_of_sufOf (matchToks_lit_subIn _ _ _ _ hgrp hr2)
          (sufOf_trans hsuf1 hts)
    · rcases hm : matchToks pat.post r2 with _ | ⟨r3, rest3⟩
      · rw [hm] at h2
        simp at h2
      · have hr3 : r3 ∈ matchToks pat.post r2 := by rw [hm]; exact List.mem_cons_self _ _
        exact subIn_of_sufOf (matchToks_lit_subIn _ _ _ _ hpost hr3)
          (sufOf_trans (sufOf_trans hsuf2 hsuf1) hts)

/-- When the ad text does not contain the string Baño, the baños pattern
cannot match, since a successful search would have consumed that literal. -/
theorem reSearch_banos_none {ad : String} (h : pyIn "Baño" ad = false) :
    reSearch banosPat ad = none := by
  rcases hv : reSearch banosPat ad with _ | v
  · rfl
  · exfalso
    have hsub : SubIn "Baño".toList ad.toList := by
      refine reSearch_some_subIn hv ?_
      simp [banosPat]
    have : pyIn "Baño" ad = true := pyIn_iff.mpr hsub
    rw [h] at this
    cases this

/-- Membership in a python-rendered string list: the quoted form of every
member occurs inside the str() of the list. -/
theorem subIn_pyJoin {x : String} : ∀ (xs : List String), x ∈ xs →
    SubIn (pyRepr x).toList (pyJoin (xs.map pyRepr)).toList := by
  intro xs
  induction xs with
  | nil => intro hx; simp at hx
  | cons y ys ih =>
    intro hx
    rcases List.mem_cons.mp hx with he | htail
    · subst he
      cases ys with
      | nil => exact ⟨[], [], by simp [pyJoin]⟩
      | cons z zs =>
        refine ⟨[], (", " ++ pyJoin (pyRepr z :: zs.map pyRepr)).toList, ?_⟩
        simp [pyJoin, String.toList]
    · cases ys with
      | nil => simp at htail
      | cons z zs =>
        have hsub := ih htail
        obtain ⟨u, v, huv⟩ := hsub
        refine ⟨(pyRepr y ++ ", ").toList ++ u, v, ?_⟩
        have : pyJoin ((y :: z :: zs).map pyRepr)
            = pyRepr y ++ ", " ++ pyJoin ((z :: zs).map pyRepr) := by
          simp [pyJoin]
        rw [this]
        simp only [String.toList] at huv ⊢
        simp only [String.data_append, List.append_assoc, huv]

/-- The str() of the class list of any cell that carries the token
ar12grisb contains the substring ar12gris, so the secondary check of
_ads_in_a_page never skips a cell found by the primary class query. -/
theorem pyIn_ar12gris (classes : List String) (h : classes.contains "ar12grisb" = true) :
    pyIn "ar12gris" (strOfPyList classes) = true := by
  have hmem : "ar12grisb" ∈ classes := by
    simpa using h
  have h1 : SubIn (pyRepr "ar12grisb").toList (pyJoin (classes.map pyRepr)).toList :=
    subIn_pyJoin classes hmem
  have h0 : SubIn "ar12gris".toList (pyRepr "ar12grisb").toList := by
    apply listSubB_iff.mp
    decide
  have h2 : SubIn "ar12gris".toList (pyJoin (classes.map pyRepr)).toList :=
    subIn_trans h0 h1
  apply pyIn_iff.mpr
  obtain ⟨u, v, huv⟩ := h2
  refine ⟨"[".toList ++ u, v ++ "]".toList, ?_⟩
  simp only [String.toList] at huv ⊢
  simp only [strOfPyList, String.toList, String.data_append, List.append_assoc, huv]

/-- Shifting a map over an initial range: prepending the value at the
start index matches extending the range by one. -/
theorem mapShift (f : Nat → Nat) (i n : Nat) :
    f i :: (List.range n).map (fun j => f (i + 1 + j)) = (List.range (n + 1)).map (fun j => f (i + j)) := by
  rw [List.range_succ_eq_map, List.map_cons, List.map_map]
  refine congrArg₂ _ (by rw [Nat.add_zero]) ?_
  refine List.map_congr_left ?_
  intro j _
  show f (i + 1 + j) = f (i + Nat.succ j)
  exact congrArg f (by omega)

/-- When every attempt in the remaining budget fails, the retry loop makes
exactly that many requests, sleeps the corresponding backoffs in order, and
ends with the communication exception. -/
theorem requestLoop_allFail (succ : Nat → Bool) (r : RandDraws) :
    ∀ (rem i : Nat), (∀ j, j < rem → succ (i + j) = false) →
    requestLoop succ r rem i =
      ⟨.error communicationExc, rem, (List.range rem).map (fun j => r.backoffs (i + j))⟩ := by
  intro rem
  induction rem with
  | zero =>
    intro i _
    simp [requestLoop]
  | succ rem ih =>
    intro i hfail
    have h0 : succ i = false := by
      have := hfail 0 (Nat.succ_pos rem)
      simpa using this
    rw [requestLoop, h0]
    simp only [Bool.false_eq_true, if_false]
    have hrest := ih (i + 1) (fun j hj => by
      have := hfail (j + 1) (Nat.succ_lt_succ hj)
      simpa [Nat.add_assoc, Nat.add_comm 1 j] using this)
    rw [hrest]
    simp only [RequestResult.mk.injEq]
    exact ⟨trivial, trivial, mapShift r.backoffs i rem⟩

/-- When the first success in the remaining budget happens at offset k, the
retry loop makes k plus one requests, sleeps the k backoffs of the failed
attempts, then possibly the politeness pause when the roll equals 1, and
returns the successful attempt. -/
theorem requestLoop_firstSucc (succ : Nat → Bool) (r : RandDraws) :
    ∀ (k rem i : Nat), k < rem → (∀ j, j < k → succ (i + j) = false) → succ (i + k) = true →
    requestLoop succ r rem i =
      ⟨.ok (i + k), k + 1,
       (List.range k).map (fun j => r.backoffs (i + j))
         ++ (if r.pauseRoll = 1 then [r.pauseLen] else [])⟩ := by
  intro k
  induction k with
  | zero =>
    intro rem i hk _ hsucc
    cases rem with
    | zero => cases hk
    | succ rem =>
      rw [requestLoop]
      simp only [Nat.add_zero] at hsucc
      rw [hsucc]
      simp
  | succ k ih =>
    intro rem i hk hfail hsucc
    cases rem with
    | zero => cases hk
    | succ rem =>
      have h0 : succ i = false := by
        have := hfail 0 (Nat.succ_pos k)
        simpa using this
      rw [requestLoop, h0]
      simp only [Bool.false_eq_true, if_false]
      have hrest := ih rem (i + 1) (Nat.lt_of_succ_lt_succ hk)
        (fun j hj => by
          have := hfail (j + 1) (Nat.succ_lt_succ hj)
          simpa [Nat.add_assoc, Nat.add_comm 1 j] using this)
        (by
          have : i + 1 + k = i + (k + 1) := by omega
          rw [this]
          exact hsucc)
      rw [hrest]
      have harg : i + 1 + k = i + (k + 1) := by omega
      simp only [RequestResult.mk.injEq]
      refine ⟨by rw [harg], trivial, ?_⟩
      rw [← List.cons_append, mapShift r.backoffs i k]

/-- Range-shift specialisation of mapShift to the page numbers themselves. -/
theorem rangeShift (n k : Nat) :
    n :: (List.range k).map (fun j => n + 1 + j) = (List.range (k + 1)).map (fun j => n + j) :=
  mapShift (fun x => x) n k

/-- Splitting the pagination loop after k yielded pages: when the first k
iterations starting at page n all yield, the generator output is those k
pages followed by whatever the loop does from page n + k with the
remaining fuel. -/
theorem pagesOfAds_split (fetch : Nat → FetchOutcome) :
    ∀ (k fuel n : Nat), k ≤ fuel →
    (∀ i, i < k → (pageStep fetch (n + i)).2 = StepAction.yieldPage (n + i)) →
    pagesOfAds fetch fuel n =
      ((List.range k).map (fun j => n + j) ++ (pagesOfAds fetch (fuel - k) (n + k)).1,
       (pagesOfAds fetch (fuel - k) (n + k)).2) := by
  intro k
  induction k with
  | zero =>
    intro fuel n _ _
    simp
  | succ k ih =>
    intro fuel n hk hyield
    cases fuel with
    | zero => cases hk
    | succ f =>
      have h0 : (pageStep fetch n).2 = StepAction.yieldPage n := by
        have := hyield 0 (Nat.succ_pos k)
        simpa using this
      rw [pagesOfAds, h0]
      have hstep1 : (pageStep fetch n).1 = n + 1 := rfl
      rw [hstep1]
      have hrest := ih f (n + 1) (Nat.le_of_succ_le_succ hk) (fun i hi => by
        have := hyield (i + 1) (Nat.succ_lt_succ hi)
        have harg : n + (i + 1) = n + 1 + i := by omega
        rw [harg] at this
        exact this)
      rw [hrest]
      have hsub : f - k = f + 1 - (k + 1) := by omega
      have hbase : n + 1 + k = n + (k + 1) := by omega
      rw [hsub, hbase]
      dsimp only
      refine congrArg₂ _ ?_ rfl
      rw [← List.cons_append, rangeShift]

/-- Page-level behaviour of the inner scrap loop under a positive limit:
starting below the limit, the ads kept from the page are its first l - n
ads, the counter becomes the capped total, and the remaining_ads flag
survives exactly when the limit is still not reached. -/
theorem scrapPage_spec (l : Nat) (hl : 1 ≤ l) :
    ∀ (p : List String) (n : Nat), n < l →
    scrapPage (some l) p n = (p.take (l - n), min (n + p.length) l, decide (n + p.length < l)) := by
  intro p
  induction p with
  | nil =>
    intro n hn
    have hmin : min n l = n := Nat.min_eq_left (Nat.le_of_lt hn)
    have hdec : decide (n < l) = true := decide_eq_true hn
    simp [scrapPage, hmin, hdec]
  | cons a as ih =>
    intro n hn
    rw [scrapPage]
    have hlim : limitHit (some l) (n + 1) = decide (l ≤ n + 1) := by
      rw [limitHit]
      have : ¬ l = 0 := by omega
      rw [if_neg this]
    by_cases hle : l ≤ n + 1
    · have hln : l = n + 1 := by omega
      rw [hlim]
      rw [decide_eq_true hle]
      simp only [if_true]
      have ht : (a :: as).take (l - n) = [a] := by
        have : l - n = 1 := by omega
        rw [this]
        simp
      have hm : min (n + (a :: as).length) l = n + 1 := by
        simp only [List.length_cons]
        omega
      have hd : decide (n + (a :: as).length < l) = false := by
        simp only [List.length_cons]
        exact decide_eq_false (by omega)
      rw [ht, hm, hd]
    · rw [hlim]
      rw [decide_eq_false hle]
      simp only [Bool.false_eq_true, if_false]
      have hrec := ih (n + 1) (by omega)
      rw [hrec]
      have ht : (a :: as).take (l - n) = a :: as.take (l - (n + 1)) := by
        have : l - n = (l - (n + 1)) + 1 := by omega
        rw [this]
        simp
      have hm : min (n + 1 + as.length) l = min (n + (a :: as).length) l := by
        simp only [List.length_cons]
        omega
      have hd : decide (n + 1 + as.length < l) = decide (n + (a :: as).length < l) := by
        simp only [List.length_cons]
        have harith : n + 1 + as.length = n + (as.length + 1) := by omega
        rw [harith]
      rw [ht, hm, hd]

/-- Whole-crawl behaviour of the scrap loops under a positive limit: the
appended ads are exactly the first l - n ads of the concatenated stream of
pages. -/
theorem scrapPages_spec (l : Nat) (hl : 1 ≤ l) :
    ∀ (pages : List (List String)) (n : Nat), n < l →
    scrapPages (some l) pages n = (pages.flatten).take (l - n) := by
  intro pages
  induction pages with
  | nil =>
    intro n _
    simp [scrapPages]
  | cons p ps ih =>
    intro n hn
    rw [scrapPages]
    rw [scrapPage_spec l hl p n hn]
    by_cases hlt : n + p.length < l
    · have hflag : (decide (n + p.length < l)) = true := decide_eq_true hlt
      simp only [hflag, if_true]
      have htake : p.take (l - n) = p := List.take_of_length_le (by omega)
      have hmin : min (n + p.length) l = n + p.length := by omega
      rw [htake, hmin]
      rw [ih (n + p.length) hlt]
      rw [List.flatten_cons, List.take_append_eq_append_take]
      have h1 : p.take (l - n) = p := List.take_of_length_le (by omega)
      have h2 : l - n - p.length = l - (n + p.length) := by omega
      rw [h1, h2]
    · have hflag : (decide (n + p.length < l)) = false := decide_eq_false hlt
      simp only [hflag, Bool.false_eq_true, if_false]
      rw [List.flatten_cons, List.take_append_eq_append_take]
      have h2 : l - n - p.length = 0 := by omega
      rw [h2]
      simp

/-- With a falsy limit the inner loop keeps every ad of the page and the
flag never falls. -/
theorem scrapPage_falsy (lim : Option Nat) (hfalse : ∀ m, limitHit lim m = false) :
    ∀ (p : List String) (n : Nat), scrapPage lim p n = (p, n + p.length, true) := by
  intro p
  induction p with
  | nil =>
    intro n
    simp [scrapPage]
  | cons a as ih =>
    intro n
    rw [scrapPage, hfalse (n + 1)]
    simp only [Bool.false_eq_true, if_false]
    rw [ih (n + 1)]
    simp only [List.length_cons]
    have : n + 1 + as.length = n + (as.length + 1) := by omega
    rw [this]

/-- With a falsy limit the crawl consumes every page and keeps every ad. -/
theorem scrapPages_falsy (lim : Option Nat) (hfalse : ∀ m, limitHit lim m = false) :
    ∀ (pages : List (List String)) (n : Nat), scrapPages lim pages n = pages.flatten := by
  intro pages
  induction pages with
  | nil =>
    intro n
    simp [scrapPages]
  | cons p ps ih =>
    intro n
    rw [scrapPages, scrapPage_falsy lim hfalse p n]
    simp only [if_true]
    rw [ih (n + p.length), List.flatten_cons]

/-- C3: for every input ad text, the Record produced by the venta_casas
field parser has exactly the thirteen keys precio, zona, colonia, visitas,
plantas, m2_terreno, recámaras, baños, m2_constr, fecha_pub, latitude,
longitude, url, in that order; every value is an optional string, never an
absent key, so all records share one schema. -/
theorem claim_c3_record_schema (ad : String) :
    ((ventaCasasAdToDf ad).map Prod.fst = columnsVC) ∧ (ventaCasasAdToDf ad).length = 13 :=
  ⟨rfl, rfl⟩

/-- C5: for every category name absent from the static registry, scrap
fails with the unknown-category exception, and it does so for every
possible state of the network (the result does not depend on the pages at
all), showing the failure precedes any fetch. -/
theorem claim_c5_unknown_category (category : String)
    (h : categoryNames.contains category = false) :
    ∀ (adLimit : Option Nat) (pages : List (List String)),
      scrap category adLimit pages = .error unknownCategoryExc := by
  intro adLimit pages
  rw [scrap]
  rw [h]
  simp

/-- Witness for C5 at a concrete unregistered category. -/
theorem claim_c5_unknown_category_witness :
    categoryNames.contains "casas" = false
      ∧ scrap "casas" (some 5) [["ad"]] = .error unknownCategoryExc :=
  ⟨by decide, claim_c5_unknown_category "casas" (by decide) (some 5) [["ad"]]⟩

/-- C1: for every registered category and positive ad limit L, scrap
returns exactly the records of the first L ads of the stream of pages,
hence min L (number of available ads) rows: the crawl stops with the L-th
appended record mid-page, the remaining ads of that page and the remaining
pages contribute nothing, and when fewer than L ads exist all of them are
returned (an empty table when there are none). -/
theorem claim_c1_ad_limit_rows (category : String)
    (hc : categoryNames.contains category = true) (L : Nat) (hL : 1 ≤ L)
    (pages : List (List String)) :
    scrap category (some L) pages = .ok ((pages.flatten.take L).map ventaCasasAdToDf)
      ∧ ((pages.flatten.take L).map ventaCasasAdToDf).length = min L pages.flatten.length := by
  constructor
  · rw [scrap, hc]
    simp only [if_true]
    have hs := scrapPages_spec L hL pages 0 (by omega)
    rw [hs]
    have hz : L - 0 = L := by omega
    rw [hz]
  · rw [List.length_map, List.length_take]

/-- Witness for C1 at a concrete category, limit and page stream. -/
theorem claim_c1_ad_limit_rows_witness :
    categoryNames.contains "venta_casas_cdmx" = true ∧ 1 ≤ 1
      ∧ scrap "venta_casas_cdmx" (some 1) [["a"], ["b"]]
          = .ok ((([["a"], ["b"]] : List (List String)).flatten.take 1).map ventaCasasAdToDf) :=
  ⟨by decide, by decide,
   (claim_c1_ad_limit_rows "venta_casas_cdmx" (by decide) 1 (by decide) [["a"], ["b"]]).1⟩

/-- C10: a zero ad_limit does not limit the crawl at all, because the
early-stop check tests the truthiness of ad_limit: scrap with limit 0
behaves exactly like scrap with no limit, and the loop consumes the whole
page stream, keeping every ad, rather than returning an empty table. -/
theorem claim_c10_zero_limit (category : String) (pages : List (List String)) :
    scrap category (some 0) pages = scrap category none pages
      ∧ scrapPages (some 0) pages 0 = pages.flatten := by
  have hz : ∀ m, limitHit (some 0) m = false := fun m => by simp [limitHit]
  have hn : ∀ m, limitHit (none : Option Nat) m = false := fun m => rfl
  constructor
  · rw [scrap, scrap, scrapPages_falsy _ hz, scrapPages_falsy _ hn]
  · exact scrapPages_falsy _ hz pages 0

/-- C2: when every fetch succeeds and the sentinel region of page
initial + k is the first to contain the no-results marker, the page
generator terminates normally after yielding exactly the pages before that
point, so it yields zero pages at or beyond the sentinel; moreover the
page counter is incremented by every iteration unconditionally, whatever
the fetch outcome is. -/
theorem claim_c2_pagination_terminates (regions : Nat → List String)
    (initial k fuel : Nat)
    (hbefore : ∀ i, i < k → lastPageCheck (regions (initial + i)) = false)
    (hsent : lastPageCheck (regions (initial + k)) = true)
    (hfuel : k < fuel) :
    pagesOfAds (fun m => FetchOutcome.ok (regions m)) fuel initial
        = ((List.range k).map (fun j => initial + j), PagEnd.stopped)
      ∧ (∀ (fetch : Nat → FetchOutcome) (n : Nat), (pageStep fetch n).1 = n + 1) := by
  constructor
  · have hyield : ∀ i, i < k →
        (pageStep (fun m => FetchOutcome.ok (regions m)) (initial + i)).2
          = StepAction.yieldPage (initial + i) := by
      intro i hi
      simp [pageStep, hbefore i hi]
    rw [pagesOfAds_split _ k fuel initial (Nat.le_of_lt hfuel) hyield]
    obtain ⟨m, hm⟩ : ∃ m, fuel - k = m + 1 := ⟨fuel - k - 1, by omega⟩
    rw [hm]
    have hstep : pagesOfAds (fun m => FetchOutcome.ok (regions m)) (m + 1) (initial + k)
        = ([], PagEnd.stopped) := by
      simp [pagesOfAds, pageStep, hsent]
    rw [hstep]
    simp
  · intro fetch n
    rfl

/-- Witness for C2 on a concrete site whose sentinel appears at page 5. -/
theorem claim_c2_pagination_terminates_witness :
    (∀ i, i < 2 → lastPageCheck ((fun n => if n = 5 then [sentinelMarker] else []) (3 + i)) = false)
      ∧ lastPageCheck ((fun n => if n = 5 then [sentinelMarker] else []) (3 + 2)) = true
      ∧ pagesOfAds (fun m => FetchOutcome.ok ((fun n => if n = 5 then [sentinelMarker] else []) m)) 4 3
          = ((List.range 2).map (fun j => 3 + j), PagEnd.stopped) :=
  ⟨by decide, by decide,
   (claim_c2_pagination_terminates (fun n => if n = 5 then [sentinelMarker] else []) 3 2 4
     (by decide) (by decide) (by decide)).1⟩

/-- C7 counterexample: the three fatal failures are not distinguishable
error types, because scrapper.py raises every one of them as the same bare
Python class Exception; only their messages differ. -/
theorem claim_c7_counterexample :
    communicationExc.cls = paginationExc.cls
      ∧ paginationExc.cls = unknownCategoryExc.cls
      ∧ communicationExc.cls = "Exception" :=
  ⟨rfl, rfl, rfl⟩

/-- C7 amended: any failure inside the paginator, including an exhausted
fetch raising the communication exception, makes the page sequence fail
with the pagination exception after the pages already yielded; the three
fatal failure modes all share the Python class Exception and are
distinguishable only by their pairwise distinct messages. -/
theorem claim_c7_pagination_error (regions : Nat → List String) (e : PyException)
    (initial k fuel : Nat)
    (hbefore : ∀ i, i < k → lastPageCheck (regions (initial + i)) = false)
    (hfuel : k < fuel) :
    pagesOfAds
        (fun m => if m = initial + k then FetchOutcome.fail e else FetchOutcome.ok (regions m))
        fuel initial
        = ((List.range k).map (fun j => initial + j), PagEnd.errored paginationExc)
      ∧ (communicationExc.msg ≠ paginationExc.msg
          ∧ paginationExc.msg ≠ unknownCategoryExc.msg
          ∧ communicationExc.msg ≠ unknownCategoryExc.msg)
      ∧ (communicationExc.cls = paginationExc.cls
          ∧ paginationExc.cls = unknownCategoryExc.cls) := by
  refine ⟨?_, ⟨by decide, by decide, by decide⟩, rfl, rfl⟩
  have hyield : ∀ i, i < k →
      (pageStep
          (fun m => if m = initial + k then FetchOutcome.fail e else FetchOutcome.ok (regions m))
          (initial + i)).2
        = StepAction.yieldPage (initial + i) := by
    intro i hi
    have hne : ¬ (initial + i = initial + k) := by omega
    simp [pageStep, hne, hbefore i hi]
  rw [pagesOfAds_split _ k fuel initial (Nat.le_of_lt hfuel) hyield]
  obtain ⟨m, hm⟩ : ∃ m, fuel - k = m + 1 := ⟨fuel - k - 1, by omega⟩
  rw [hm]
  have hstep : pagesOfAds
      (fun m => if m = initial + k then FetchOutcome.fail e else FetchOutcome.ok (regions m))
      (m + 1) (initial + k)
      = ([], PagEnd.errored paginationExc) := by
    simp [pagesOfAds, pageStep]
  rw [hstep]
  simp

/-- Witness for C7 at a concrete run whose second fetch raises the
communication exception. -/
theorem claim_c7_pagination_error_witness :
    (∀ i, i < 1 → lastPageCheck ((fun _ => ([] : List String)) (0 + i)) = false)
      ∧ pagesOfAds
          (fun m => if m = 0 + 1 then FetchOutcome.fail communicationExc
                    else FetchOutcome.ok ((fun _ => ([] : List String)) m))
          3 0
          = ((List.range 1).map (fun j => 0 + j), PagEnd.errored paginationExc) :=
  ⟨by decide,
   (claim_c7_pagination_error (fun _ => ([] : List String)) communicationExc 0 1 3
     (by decide) (by decide)).1⟩

/-- Characterization of a fully failing request run with the concrete
budget of 10 attempts. -/
theorem requestHelper_allFail (succ : Nat → Bool) (r : RandDraws)
    (h : ∀ j, j < 10 → succ j = false) :
    requestHelper succ r = ⟨.error communicationExc, 10, (List.range 10).map r.backoffs⟩ := by
  rw [requestHelper, requestLoop_allFail succ r 10 0 (fun j hj => by simpa using h j hj)]
  simp only [RequestResult.mk.injEq]
  refine ⟨trivial, trivial, ?_⟩
  refine List.map_congr_left ?_
  intro j _
  rw [Nat.zero_add]

/-- Characterization of a request run whose first success is attempt k. -/
theorem requestHelper_firstSucc (succ : Nat → Bool) (r : RandDraws)
    (k : Nat) (hk : k < 10) (hbefore : ∀ j, j < k → succ j = false) (hsucc : succ k = true) :
    requestHelper succ r = ⟨.ok k, k + 1,
      (List.range k).map r.backoffs ++ (if r.pauseRoll = 1 then [r.pauseLen] else [])⟩ := by
  rw [requestHelper,
    requestLoop_firstSucc succ r k 10 0 hk (fun j hj => by simpa using hbefore j hj)
      (by simpa using hsucc)]
  simp only [RequestResult.mk.injEq]
  refine ⟨by rw [Nat.zero_add], trivial, ?_⟩
  refine congrArg₂ _ ?_ rfl
  refine List.map_congr_left ?_
  intro j _
  rw [Nat.zero_add]

/-- C6: for every url fetch, the retry loop makes at most 10 attempts; a
run where every attempt fails sleeps one randomized 5-to-15 backoff per
failure and ends with the communication exception, and that exception
appears exactly when all 10 attempts failed; a run whose first success is
attempt k sleeps the k backoffs of its failures and then, exactly when the
1-in-10 politeness roll equals 1, one extra 1-to-5 pause before returning;
consequently every sleep of a run is either a backoff in the range 5 to 15
or the politeness pause in the range 1 to 5 under a roll of 1. -/
theorem claim_c6_retry_budget (succ : Nat → Bool) (r : RandDraws)
    (hb : ∀ i, 5 ≤ r.backoffs i ∧ r.backoffs i ≤ 15)
    (hp : 1 ≤ r.pauseLen ∧ r.pauseLen ≤ 5)
    (_hroll : 1 ≤ r.pauseRoll ∧ r.pauseRoll ≤ 10) :
    (requestHelper succ r).attempts ≤ 10
      ∧ ((requestHelper succ r).outcome = .error communicationExc ↔ ∀ j, j < 10 → succ j = false)
      ∧ ((∀ j, j < 10 → succ j = false) →
          requestHelper succ r = ⟨.error communicationExc, 10, (List.range 10).map r.backoffs⟩)
      ∧ (∀ k, k < 10 → (∀ j, j < k → succ j = false) → succ k = true →
          requestHelper succ r = ⟨.ok k, k + 1,
            (List.range k).map r.backoffs ++ (if r.pauseRoll = 1 then [r.pauseLen] else [])⟩)
      ∧ (∀ s, s ∈ (requestHelper succ r).sleeps →
          (5 ≤ s ∧ s ≤ 15) ∨ (r.pauseRoll = 1 ∧ 1 ≤ s ∧ s ≤ 5)) := by
  by_cases hall : ∀ j, j < 10 → succ j = false
  · have hchar := requestHelper_allFail succ r hall
    refine ⟨?_, ?_, fun _ => hchar, ?_, ?_⟩
    · rw [hchar]
    · rw [hchar]
      simp only [true_iff]
      exact fun _ _ => hall _ (by assumption)
    · intro k hk _ hsucc
      exact absurd (hall k hk) (by simp [hsucc])
    · intro s hs
      rw [hchar] at hs
      simp only [List.mem_map] at hs
      obtain ⟨j, _, hj⟩ := hs
      left
      rw [← hj]
      exact hb j
  · have hex : ∃ j, succ j = true := by
      by_contra hno
      push_neg at hno
      refine hall ?_
      intro j _
      cases hjv : succ j
      · rfl
      · exact absurd hjv (hno j)
    have hkP : succ (Nat.find hex) = true := Nat.find_spec hex
    have hkmin : ∀ j, j < Nat.find hex → succ j = false := by
      intro j hj
      have := Nat.find_min hex hj
      cases hjv : succ j
      · rfl
      · exact absurd hjv this
    have hklt : Nat.find hex < 10 := by
      by_contra hge
      push_neg at hge
      refine hall ?_
      intro j hj
      exact hkmin j (by omega)
    have hchar := requestHelper_firstSucc succ r (Nat.find hex) hklt hkmin hkP
    refine ⟨?_, ?_, ?_, ?_, ?_⟩
    · rw [hchar]
      exact Nat.succ_le_of_lt hklt
    · rw [hchar]
      constructor
      · intro habs
        exact absurd habs (by simp)
      · intro h10
        exact absurd (h10 _ hklt) (by simp [hkP])
    · intro h10
      exact absurd (h10 _ hklt) (by simp [hkP])
    · intro k hk hbefore hsucc
      exact requestHelper_firstSucc succ r k hk hbefore hsucc
    · intro s hs
      rw [hchar] at hs
      simp only [List.mem_append, List.mem_map] at hs
      rcases hs with ⟨j, _, hj⟩ | hpause
      · left
        rw [← hj]
        exact hb j
      · by_cases hone : r.pauseRoll = 1
        · rw [if_pos hone] at hpause
          simp only [List.mem_singleton] at hpause
          right
          exact ⟨hone, by rw [hpause]; exact hp.1, by rw [hpause]; exact hp.2⟩
        · rw [if_neg hone] at hpause
          simp at hpause

/-- Witness for C6: a run whose third attempt succeeds, with backoff 7,
pause roll 1 and pause 3. -/
theorem claim_c6_retry_budget_witness :
    (∀ i : Nat, 5 ≤ (RandDraws.mk 1 3 (fun _ => 7)).backoffs i
        ∧ (RandDraws.mk 1 3 (fun _ => 7)).backoffs i ≤ 15)
      ∧ (requestHelper (fun i => i == 2) (RandDraws.mk 1 3 (fun _ => 7))).attempts ≤ 10 :=
  ⟨fun _ => ⟨by show (5 : Nat) ≤ 7; decide, by show (7 : Nat) ≤ 15; decide⟩,
   (claim_c6_retry_budget (fun i => i == 2) (RandDraws.mk 1 3 (fun _ => 7))
     (fun _ => ⟨by show (5 : Nat) ≤ 7; decide, by show (7 : Nat) ≤ 15; decide⟩)
     ⟨by decide, by decide⟩ ⟨by decide, by decide⟩).1⟩

/-- C4 counterexample: an ad text that contains the substring dollar sign
followed by 1,800,000 pesos, but whose first dollar sign starts an earlier
match, gets that earlier capture as its precio field, so the claimed
round-trip value is not produced. -/
theorem claim_c4_counterexample :
    pyIn "$1,800,000 pesos" "$2 x $1,800,000 pesos" = true
      ∧ fieldOf (ventaCasasAdToDf "$2 x $1,800,000 pesos") "precio" = some "2 x"
      ∧ fieldOf (ventaCasasAdToDf "$2 x $1,800,000 pesos") "precio" ≠ some "1,800,000 pesos" :=
  ⟨by decide, by decide, by decide⟩

/-- C4 amended: each matcher is applied independently and leaves its field
null on no match; in particular for any ad text that does not contain the
string Baño at all, the baños field is null; and on an ad text whose
dollar sign and ZONA: markers occur as the leftmost match of their
patterns, delimited by line ends, the precio field is 1,800,000 pesos and
the zona field is NORTE. -/
theorem claim_c4_field_matchers (ad : String) (h : pyIn "Baño" ad = false) :
    fieldOf (ventaCasasAdToDf ad) "baños" = none
      ∧ fieldOf (ventaCasasAdToDf "casa\n$1,800,000 pesos\nZONA: NORTE\n") "precio"
          = some "1,800,000 pesos"
      ∧ fieldOf (ventaCasasAdToDf "casa\n$1,800,000 pesos\nZONA: NORTE\n") "zona"
          = some "NORTE" := by
  refine ⟨?_, by decide, by decide⟩
  have hb : fieldOf (ventaCasasAdToDf ad) "baños" = reSearch banosPat ad := rfl
  rw [hb]
  exact reSearch_banos_none h

/-- Witness for C4 amended at a concrete bath-free ad text. -/
theorem claim_c4_field_matchers_witness :
    pyIn "Baño" "sin datos" = false ∧ fieldOf (ventaCasasAdToDf "sin datos") "baños" = none :=
  ⟨by decide, (claim_c4_field_matchers "sin datos" (by decide)).1⟩

/-- C8 counterexample: a typical listing cell carries only the class token
ar12grisb, so it does not carry the exact secondary marker class ar12gris;
the claim would have it skipped, yet the extractor processes it and
fetches the detail page of its ad child, because the secondary check is a
substring test on the str() of the class list, which always passes. -/
theorem claim_c8_counterexample :
    (["ar12grisb"] : List String).contains "ar12gris" = false
      ∧ adsInAPage [⟨["ar12grisb"], [⟨some "$1", ["img", "detail"]⟩]⟩] = .ok ["detail"] :=
  ⟨by decide, by decide⟩

/-- C8 amended: the secondary class check is a substring test of ar12gris
inside the Python str() of the class list and it passes for every cell
found by the primary query for the class ar12grisb, so no found cell is
ever skipped by it; within a kept cell a child whose text extraction fails
or whose text lacks the currency marker is skipped without error, and a
kept ad child has its detail page fetched from its second hyperlink. -/
theorem claim_c8_ad_extractor :
    (∀ (td : TdCell), td.classes.contains "ar12grisb" = true →
        pyIn "ar12gris" (strOfPyList td.classes) = true)
      ∧ (∀ (c : AdChild), c.text = none → processChild c = none)
      ∧ (∀ (c : AdChild) (t : String), c.text = some t → pyIn "$" t = false →
          processChild c = none)
      ∧ (∀ (c : AdChild) (t u : String), c.text = some t → pyIn "$" t = true →
          c.links.get? 1 = some u → processChild c = some (some u)) := by
  refine ⟨fun td h => pyIn_ar12gris td.classes h, ?_, ?_, ?_⟩
  · intro c hc
    rw [processChild, hc]
  · intro c t hc hn
    rw [processChild, hc]
    simp [hn]
  · intro c t u hc hd hu
    rw [processChild, hc]
    dsimp only
    rw [hd, if_pos rfl, hu]

/-- Witness for C8 amended at a concrete two-class cell. -/
theorem claim_c8_ad_extractor_witness :
    (TdCell.mk ["price", "ar12grisb"] []).classes.contains "ar12grisb" = true
      ∧ pyIn "ar12gris" (strOfPyList (TdCell.mk ["price", "ar12grisb"] []).classes) = true :=
  ⟨by decide, claim_c8_ad_extractor.1 (TdCell.mk ["price", "ar12grisb"] []) (by decide)⟩

/-- C9 counterexample: a detail page whose single map div contains both
marker strings LatitudGM and LongitudGM, but no LatitudGM=value pattern,
produces an AdText without the coordinate lines: the extraction of the
latitude value raises, the error is swallowed, and no lines are appended,
so containing both markers does not imply the AdText ends with the two
coordinate lines. -/
theorem claim_c9_counterexample :
    hasBothMarkers "xLatitudGM LongitudGM=" = true
      ∧ geoLines ["xLatitudGM LongitudGM="] = []
      ∧ endsWithGeoLines
          (adAsString ⟨"u", "v", "h", "i", [], ["xLatitudGM LongitudGM="]⟩) = false :=
  ⟨by decide, by decide, by decide⟩

/-- C9 amended: the AdText is the base text followed by exactly the
appended geolocation lines; a page without a map div gets no lines and no
error; for a single map div the lines are appended exactly when the div
passes the longitude-marker membership check of the code, which discards
the latitude conjunct as a truthy literal, and both value extractions
succeed, in which case the two lines are latitude=value and
longitude=value. -/
theorem claim_c9_geolocation (p : AdDetailPage) (d : String) :
    adAsString p = adBase p ++ String.join ((geoLines p.mapDivs).map (fun t => t ++ "\n"))
      ∧ geoLines ([] : List String) = []
      ∧ (geoLines [d] ≠ [] ↔
          (pyIn "LongitudGM" d = true
            ∧ (reSearch latGMPat d).isSome ∧ (reSearch longGMPat d).isSome))
      ∧ (∀ la lo, pyIn "LongitudGM" d = true → reSearch latGMPat d = some la →
          reSearch longGMPat d = some lo →
          geoLines [d] = ["latitude=" ++ la, "longitude=" ++ lo]) := by
  refine ⟨rfl, rfl, ?_, ?_⟩
  · by_cases hl : pyIn "LongitudGM" d = true
    · rcases hla : reSearch latGMPat d with _ | la <;>
        rcases hlo : reSearch longGMPat d with _ | lo <;>
          simp [geoLines, hl, hla, hlo]
    · have hl2 : pyIn "LongitudGM" d = false := by
        cases hv : pyIn "LongitudGM" d
        · rfl
        · exact absurd hv hl
      simp [geoLines, hl2]
  · intro la lo hl hla hlo
    simp [geoLines, hl, hla, hlo]

/-- Witness for C9 amended at a concrete map div holding both value
patterns. -/
theorem claim_c9_geolocation_witness :
    pyIn "LongitudGM" "LatitudGM=1.5 LongitudGM=2.5" = true
      ∧ reSearch latGMPat "LatitudGM=1.5 LongitudGM=2.5" = some "1.5"
      ∧ reSearch longGMPat "LatitudGM=1.5 LongitudGM=2.5" = some "2.5"
      ∧ geoLines ["LatitudGM=1.5 LongitudGM=2.5"]
          = ["latitude=" ++ "1.5", "longitude=" ++ "2.5"] :=
  ⟨by decide, by decide, by decide,
   (claim_c9_geolocation ⟨"", "", "", "", [], []⟩ "LatitudGM=1.5 LongitudGM=2.5").2.2.2
     "1.5" "2.5" (by decide) (by decide) (by decide)⟩
